import Mathlib

/-!
# Entry query builder and job feeder of the storage layer

A shallow embedding of `storage/entry_query_builder.go` and `storage/job.go`.

* Go `int64` / `int` fields are modelled as `Int`; the builder performs no arithmetic
  on them (they are only compared with zero and printed), so no wrap-around can occur.
* Go `interface{}` values bound as SQL arguments are modelled by `Value`.
* `fmt.Sprintf` with `%s` is string concatenation, `%d` is `sprintfD` (signed decimal);
  `len(args)+1` is a natural number and is printed with the decimal printer for `Nat`.
* `strings.Join` is `String.intercalate`.
* The fluent builder mutates itself and returns itself; here every configurator maps a
  builder to the mutated builder.
-/

namespace Storage

/-- A value handed to the database driver as a positional argument (`interface{}`). -/
inductive Value where
  | int (i : Int)
  | str (s : String)
  deriving DecidableEq, Repr

/-- The builder record of `entry_query_builder.go`. The `store` pointer is not a field
of the model: the two finalizers that use it take the store operations as arguments. -/
structure EntryQueryBuilder where
  feedID : Int
  userID : Int
  timezone : String
  categoryID : Int
  status : String
  order : String
  direction : String
  limit : Int
  offset : Int
  entryID : Int
  gtEntryID : Int
  ltEntryID : Int
  conditions : List String
  args : List Value
  deriving DecidableEq, Repr

/-- Go's `%d` verb applied to a signed integer. -/
def sprintfD : Int → String
  | Int.ofNat n => toString n
  | Int.negSucc n => "-" ++ toString (n + 1)

/-- Constructor `NewEntryQueryBuilder`: only the user id and the timezone are set, every other field
has Go's zero value. -/
def NewEntryQueryBuilder (userID : Int) (timezone : String) : EntryQueryBuilder :=
  { feedID := 0, userID := userID, timezone := timezone, categoryID := 0, status := "",
    order := "", direction := "", limit := 0, offset := 0, entryID := 0, gtEntryID := 0,
    ltEntryID := 0, conditions := [], args := [] }

namespace EntryQueryBuilder

/-- Configurator `WithCondition`: the value is appended first, then the clause is rendered with
`len(e.args)+1` taken after the append. -/
def WithCondition (e : EntryQueryBuilder) (column operator : String) (value : Value) :
    EntryQueryBuilder :=
  let args := e.args ++ [value]
  { e with
    args := args
    conditions := e.conditions ++ [column ++ " " ++ operator ++ " $" ++ toString (args.length + 1)] }

def WithEntryID (e : EntryQueryBuilder) (entryID : Int) : EntryQueryBuilder :=
  { e with entryID := entryID }

def WithEntryIDGreaterThan (e : EntryQueryBuilder) (entryID : Int) : EntryQueryBuilder :=
  { e with gtEntryID := entryID }

def WithEntryIDLowerThan (e : EntryQueryBuilder) (entryID : Int) : EntryQueryBuilder :=
  { e with ltEntryID := entryID }

def WithFeedID (e : EntryQueryBuilder) (feedID : Int) : EntryQueryBuilder :=
  { e with feedID := feedID }

def WithCategoryID (e : EntryQueryBuilder) (categoryID : Int) : EntryQueryBuilder :=
  { e with categoryID := categoryID }

def WithStatus (e : EntryQueryBuilder) (status : String) : EntryQueryBuilder :=
  { e with status := status }

def WithOrder (e : EntryQueryBuilder) (order : String) : EntryQueryBuilder :=
  { e with order := order }

def WithDirection (e : EntryQueryBuilder) (direction : String) : EntryQueryBuilder :=
  { e with direction := direction }

def WithLimit (e : EntryQueryBuilder) (limit : Int) : EntryQueryBuilder :=
  { e with limit := limit }

def WithOffset (e : EntryQueryBuilder) (offset : Int) : EntryQueryBuilder :=
  { e with offset := offset }

/-- Method `buildCondition`: the argument vector and the predicate text. Each block of the source
is one rebinding of the pair `(args, conditions)`; the placeholder number of a structural
filter is `len(args)+1` taken before its value is appended. -/
def buildCondition (e : EntryQueryBuilder) : List Value × String :=
  let args : List Value := [Value.int e.userID]
  let conditions : List String := ["e.user_id = $1"]
  let (args, conditions) :=
    if e.conditions.length > 0 then (args ++ e.args, conditions ++ e.conditions)
    else (args, conditions)
  let (args, conditions) :=
    if e.categoryID ≠ 0 then
      (args ++ [Value.int e.categoryID],
        conditions ++ ["f.category_id=$" ++ toString (args.length + 1)])
    else (args, conditions)
  let (args, conditions) :=
    if e.feedID ≠ 0 then
      (args ++ [Value.int e.feedID], conditions ++ ["e.feed_id=$" ++ toString (args.length + 1)])
    else (args, conditions)
  let (args, conditions) :=
    if e.entryID ≠ 0 then
      (args ++ [Value.int e.entryID], conditions ++ ["e.id=$" ++ toString (args.length + 1)])
    else (args, conditions)
  let (args, conditions) :=
    if e.gtEntryID ≠ 0 then
      (args ++ [Value.int e.gtEntryID], conditions ++ ["e.id > $" ++ toString (args.length + 1)])
    else (args, conditions)
  let (args, conditions) :=
    if e.ltEntryID ≠ 0 then
      (args ++ [Value.int e.ltEntryID], conditions ++ ["e.id < $" ++ toString (args.length + 1)])
    else (args, conditions)
  let (args, conditions) :=
    if e.status ≠ "" then
      (args ++ [Value.str e.status], conditions ++ ["e.status=$" ++ toString (args.length + 1)])
    else (args, conditions)
  (args, " AND ".intercalate conditions)

/-- Method `buildSorting`: the query tail, its parts appended in source order and joined
by single spaces. -/
def buildSorting (e : EntryQueryBuilder) : String :=
  let queries : List String := []
  let queries := if e.order ≠ "" then queries ++ ["ORDER BY \"" ++ e.order ++ "\""] else queries
  let queries := if e.direction ≠ "" then queries ++ [e.direction] else queries
  let queries := if e.limit ≠ 0 then queries ++ ["LIMIT " ++ sprintfD e.limit] else queries
  let queries := if e.offset ≠ 0 then queries ++ ["OFFSET " ++ sprintfD e.offset] else queries
  " ".intercalate queries

end EntryQueryBuilder

open EntryQueryBuilder

/-- One call of the fluent configuration surface. -/
inductive Call where
  | WithCondition (column operator : String) (value : Value)
  | WithEntryID (entryID : Int)
  | WithEntryIDGreaterThan (entryID : Int)
  | WithEntryIDLowerThan (entryID : Int)
  | WithFeedID (feedID : Int)
  | WithCategoryID (categoryID : Int)
  | WithStatus (status : String)
  | WithOrder (order : String)
  | WithDirection (direction : String)
  | WithLimit (limit : Int)
  | WithOffset (offset : Int)
  deriving DecidableEq, Repr

/-- Performs one configurator call on a builder. -/
def Call.run (e : EntryQueryBuilder) : Call → EntryQueryBuilder
  | Call.WithCondition c o v => e.WithCondition c o v
  | Call.WithEntryID i => e.WithEntryID i
  | Call.WithEntryIDGreaterThan i => e.WithEntryIDGreaterThan i
  | Call.WithEntryIDLowerThan i => e.WithEntryIDLowerThan i
  | Call.WithFeedID i => e.WithFeedID i
  | Call.WithCategoryID i => e.WithCategoryID i
  | Call.WithStatus s => e.WithStatus s
  | Call.WithOrder s => e.WithOrder s
  | Call.WithDirection s => e.WithDirection s
  | Call.WithLimit n => e.WithLimit n
  | Call.WithOffset n => e.WithOffset n

/-- Performs a finite sequence of configurator calls, first call first. -/
def configure (e : EntryQueryBuilder) (calls : List Call) : EntryQueryBuilder :=
  calls.foldl Call.run e

/-- The `(column, operator, value)` triples of the `WithCondition` calls of a sequence,
in call order. -/
def extensions : List Call → List (String × String × Value)
  | [] => []
  | Call.WithCondition c o v :: rest => (c, o, v) :: extensions rest
  | _ :: rest => extensions rest

/-- The clause text `WithCondition` renders for a column, an operator and a number. -/
def extensionClause (column operator : String) (n : Nat) : String :=
  column ++ " " ++ operator ++ " $" ++ toString n

/-- The extension clauses for a list of triples, numbered upwards from `n`. -/
def extensionClauses (n : Nat) : List (String × String × Value) → List String
  | [] => []
  | (c, o, _) :: rest => extensionClause c o n :: extensionClauses (n + 1) rest

/-- The structural filters that are configured on a builder, in the fixed order of
`buildCondition`, each as its clause text up to the placeholder sign and its value. -/
def structuralFilters (e : EntryQueryBuilder) : List (String × Value) :=
  (if e.categoryID ≠ 0 then [("f.category_id=$", Value.int e.categoryID)] else [])
  ++ (if e.feedID ≠ 0 then [("e.feed_id=$", Value.int e.feedID)] else [])
  ++ (if e.entryID ≠ 0 then [("e.id=$", Value.int e.entryID)] else [])
  ++ (if e.gtEntryID ≠ 0 then [("e.id > $", Value.int e.gtEntryID)] else [])
  ++ (if e.ltEntryID ≠ 0 then [("e.id < $", Value.int e.ltEntryID)] else [])
  ++ (if e.status ≠ "" then [("e.status=$", Value.str e.status)] else [])

/-- Clause texts for a list of filters, with placeholder numbers counting upwards from `n`. -/
def numberFrom (n : Nat) : List (String × Value) → List String
  | [] => []
  | (t, _) :: rest => (t ++ toString n) :: numberFrom (n + 1) rest

/-- Reads a list of decimal digit characters back as a number. -/
def decodeDigits (cs : List Char) (start : Nat) : Nat :=
  cs.foldl (fun a c => 10 * a + (c.toNat - 48)) start

/-- Every clause of the list ends in its own placeholder, there is no other placeholder
sign in it, and the placeholder numbers count upwards from `n`. -/
def NumberedFrom : Nat → List String → Prop
  | _, [] => True
  | n, c :: cs =>
    (∃ pre : String, c = pre ++ "$" ++ toString n ∧ '$' ∉ pre.data) ∧ NumberedFrom (n + 1) cs

/-- The order columns the specification allows in SQL text. -/
def orderColumns : List String := ["id", "published_at", "status"]

/-- The direction tokens the specification allows in SQL text. -/
def directions : List String := ["ASC", "DESC"]

/-- The parts of the query tail that are present, in the order of `buildSorting`. -/
def sortingParts (e : EntryQueryBuilder) : List String :=
  (if e.order ≠ "" then ["ORDER BY \"" ++ e.order ++ "\""] else [])
  ++ (if e.direction ≠ "" then [e.direction] else [])
  ++ (if e.limit ≠ 0 then ["LIMIT " ++ sprintfD e.limit] else [])
  ++ (if e.offset ≠ 0 then ["OFFSET " ++ sprintfD e.offset] else [])

/-- The columns of `model.Entry` that `GetEntries` scans directly into the entry, and the
enclosure list that `GetEntry` attaches. The enclosure type `ε` is declared outside the
files modelled here and is left abstract. -/
structure Entry (ε : Type) where
  ID : Int
  UserID : Int
  FeedID : Int
  Hash : String
  Title : String
  URL : String
  Author : String
  Content : String
  Status : String
  Enclosures : List ε

/-- Finalizer `GetEntry`. The base read `GetEntries` and the enclosure fetch `store.GetEnclosures`
are taken as given; an error is its message. The result pairs what Go returns (an error,
the absent value `nil, nil`, or the entry) with the builder, whose limit was set to 1. -/
def EntryQueryBuilder.GetEntry {ε : Type}
    (GetEntries : EntryQueryBuilder → Except String (List (Entry ε)))
    (GetEnclosures : Int → Except String (List ε)) (e : EntryQueryBuilder) :
    Except String (Option (Entry ε)) × EntryQueryBuilder :=
  let e := { e with limit := 1 }
  match GetEntries e with
  | Except.error err => (Except.error err, e)
  | Except.ok entries =>
    if entries.length ≠ 1 then (Except.ok none, e)
    else
      match entries with
      | entry :: _ =>
        match GetEnclosures entry.ID with
        | Except.error err => (Except.error err, e)
        | Except.ok enclosures => (Except.ok (some { entry with Enclosures := enclosures }), e)
      | [] => (Except.ok none, e)

/-- A feed refresh job. -/
structure Job where
  FeedID : Int
  UserID : Int
  deriving DecidableEq, Repr

/-- How a Go function call ends: it returns a value or it panics. -/
inductive Outcome (α : Type) where
  | returned (value : α)
  | panicked (reason : String)
  deriving DecidableEq, Repr

def maxParsingError : Int := 3

/-- The SQL text of `GetJobs`, the batch size printed with `%d`. -/
def jobsQuery (batchSize : Int) : String :=
  "SELECT\n\t\tid, user_id\n\t\tFROM feeds\n\t\tWHERE parsing_error_count < $1\n\t\tORDER BY checked_at ASC LIMIT "
    ++ sprintfD batchSize

/-- The row loop of `GetJobs` over a row stream, each row given by what `Scan` yields for
it: a scan error is logged and breaks the loop, otherwise the job is appended. -/
def scanJobs : List (Except String (Int × Int)) → List Job → List String →
    List String × List Job
  | [], jobs, log => (log, jobs)
  | Except.error err :: _, jobs, log => (log ++ ["Unable to fetch feed job: " ++ err], jobs)
  | Except.ok (feedID, userID) :: rest, jobs, log =>
    scanJobs rest (jobs ++ [{ FeedID := feedID, UserID := userID }]) log

/-- Job feeder `GetJobs`. `Query` is the storage handle's `db.Query`, returning Go's pair of a row
stream pointer (`none` is the nil pointer) and an error (`none` is nil). A query error is
logged and execution continues: `rows.Next()` is then called on the pointer that `Query`
returned, and calling it on the nil pointer is a nil dereference, which panics. The result
pairs the log lines with how the call ends. -/
def GetJobs (Query : String → List Value →
      Option (List (Except String (Int × Int))) × Option String)
    (batchSize : Int) : List String × Outcome (List Job) :=
  let jobs : List Job := []
  let (rows, err) := Query (jobsQuery batchSize) [Value.int maxParsingError]
  let log : List String :=
    match err with
    | some msg => ["Unable to fetch feed jobs: " ++ msg]
    | none => []
  match rows with
  | none => (log, Outcome.panicked "runtime error: invalid memory address or nil pointer dereference")
  | some stream =>
    let (log, jobs) := scanJobs stream jobs log
    (log, Outcome.returned jobs)

/-- An entry used to exercise `GetEntry`. -/
def sampleEntry : Entry String :=
  { ID := 999, UserID := 7, FeedID := 3, Hash := "h", Title := "t", URL := "http://example.org/1",
    Author := "a", Content := "c", Status := "unread", Enclosures := [] }

/-! ## Theorems -/

theorem numberFrom_append (n : Nat) (xs ys : List (String × Value)) :
    numberFrom n (xs ++ ys) = numberFrom n xs ++ numberFrom (n + xs.length) ys := by
  induction xs generalizing n with
  | nil => simp [numberFrom]
  | cons x xs ih =>
    obtain ⟨t, v⟩ := x
    simp [numberFrom, ih, Nat.add_assoc, Nat.add_comm 1]

theorem buildCondition_eq (e : EntryQueryBuilder) (h : e.conditions.length = e.args.length) :
    buildCondition e =
      (Value.int e.userID :: (e.args ++ (structuralFilters e).map Prod.snd),
       " AND ".intercalate ("e.user_id = $1" ::
          (e.conditions ++ numberFrom (e.args.length + 2) (structuralFilters e)))) := by
  have hargs : ¬ (e.conditions.length > 0) → e.args = [] ∧ e.conditions = [] := by
    intro h0
    have h1 : e.conditions.length = 0 := by omega
    exact ⟨List.length_eq_zero.mp (h ▸ h1), List.length_eq_zero.mp h1⟩
  unfold buildCondition structuralFilters
  by_cases hc : e.conditions.length > 0
  · simp only [hc, if_true]
    by_cases h1 : e.categoryID = 0 <;> by_cases h2 : e.feedID = 0 <;>
    by_cases h3 : e.entryID = 0 <;> by_cases h4 : e.gtEntryID = 0 <;>
    by_cases h5 : e.ltEntryID = 0 <;> by_cases h6 : e.status = "" <;>
    simp [h1, h2, h3, h4, h5, h6, numberFrom, Nat.add_assoc]
  · obtain ⟨ha, hcs⟩ := hargs hc
    simp only [hc, if_false, ha, hcs]
    by_cases h1 : e.categoryID = 0 <;> by_cases h2 : e.feedID = 0 <;>
    by_cases h3 : e.entryID = 0 <;> by_cases h4 : e.gtEntryID = 0 <;>
    by_cases h5 : e.ltEntryID = 0 <;> by_cases h6 : e.status = "" <;>
    simp [h1, h2, h3, h4, h5, h6, numberFrom]

theorem extensionClauses_append (n : Nat) (xs ys : List (String × String × Value)) :
    extensionClauses n (xs ++ ys)
      = extensionClauses n xs ++ extensionClauses (n + xs.length) ys := by
  induction xs generalizing n with
  | nil => simp [extensionClauses]
  | cons x xs ih =>
    obtain ⟨c, o, v⟩ := x
    simp [extensionClauses, ih, Nat.add_assoc, Nat.add_comm 1]

theorem extensionClauses_length (n : Nat) (xs : List (String × String × Value)) :
    (extensionClauses n xs).length = xs.length := by
  induction xs generalizing n with
  | nil => rfl
  | cons x xs ih => obtain ⟨c, o, v⟩ := x; simp [extensionClauses, ih]

theorem numberFrom_length (n : Nat) (xs : List (String × Value)) :
    (numberFrom n xs).length = xs.length := by
  induction xs generalizing n with
  | nil => rfl
  | cons x xs ih => obtain ⟨t, v⟩ := x; simp [numberFrom, ih]

/-- No configurator touches the user id or the timezone. -/
theorem run_userID_timezone (e : EntryQueryBuilder) (c : Call) :
    (c.run e).userID = e.userID ∧ (c.run e).timezone = e.timezone := by
  cases c <;> exact ⟨rfl, rfl⟩

theorem configure_userID_timezone (e : EntryQueryBuilder) (calls : List Call) :
    (configure e calls).userID = e.userID ∧ (configure e calls).timezone = e.timezone := by
  induction calls generalizing e with
  | nil => exact ⟨rfl, rfl⟩
  | cons c cs ih =>
    have h := ih (c.run e)
    have h2 := run_userID_timezone e c
    simp only [configure, List.foldl_cons] at h ⊢
    exact ⟨h.1.trans h2.1, h.2.trans h2.2⟩

/-- The argument list and the clause list of a configured builder: what was there before,
followed by one entry per `WithCondition` call, the clause of the `j`-th new call carrying
the number `len(args) + j + 1`. -/
theorem configure_args_conditions (e : EntryQueryBuilder) (calls : List Call) :
    (configure e calls).args = e.args ++ (extensions calls).map (fun t => t.2.2) ∧
    (configure e calls).conditions
      = e.conditions ++ extensionClauses (e.args.length + 2) (extensions calls) := by
  induction calls generalizing e with
  | nil => simp [configure, extensions, extensionClauses]
  | cons c cs ih =>
    have h := ih (c.run e)
    simp only [configure, List.foldl_cons] at h ⊢
    cases c <;>
      simp_all [Call.run, extensions, extensionClauses, extensionClause,
        EntryQueryBuilder.WithCondition, EntryQueryBuilder.WithEntryID,
        EntryQueryBuilder.WithEntryIDGreaterThan, EntryQueryBuilder.WithEntryIDLowerThan,
        EntryQueryBuilder.WithFeedID, EntryQueryBuilder.WithCategoryID,
        EntryQueryBuilder.WithStatus, EntryQueryBuilder.WithOrder,
        EntryQueryBuilder.WithDirection, EntryQueryBuilder.WithLimit,
        EntryQueryBuilder.WithOffset, Nat.add_assoc]

theorem configure_new (u : Int) (tz : String) (calls : List Call) :
    (configure (NewEntryQueryBuilder u tz) calls).userID = u ∧
    (configure (NewEntryQueryBuilder u tz) calls).timezone = tz ∧
    (configure (NewEntryQueryBuilder u tz) calls).args
      = (extensions calls).map (fun t => t.2.2) ∧
    (configure (NewEntryQueryBuilder u tz) calls).conditions
      = extensionClauses 2 (extensions calls) := by
  have h1 := configure_userID_timezone (NewEntryQueryBuilder u tz) calls
  have h2 := configure_args_conditions (NewEntryQueryBuilder u tz) calls
  refine ⟨h1.1, h1.2, ?_, ?_⟩
  · simpa [NewEntryQueryBuilder] using h2.1
  · simpa [NewEntryQueryBuilder] using h2.2

/-- The assembled condition of a builder configured from a fresh one. -/
theorem buildCondition_configure (u : Int) (tz : String) (calls : List Call) :
    buildCondition (configure (NewEntryQueryBuilder u tz) calls) =
      (Value.int u :: ((extensions calls).map (fun t => t.2.2)
          ++ (structuralFilters (configure (NewEntryQueryBuilder u tz) calls)).map Prod.snd),
       " AND ".intercalate ("e.user_id = $1" ::
          (extensionClauses 2 (extensions calls)
            ++ numberFrom ((extensions calls).length + 2)
                (structuralFilters (configure (NewEntryQueryBuilder u tz) calls))))) := by
  obtain ⟨hu, _, ha, hc⟩ := configure_new u tz calls
  have hlen : (configure (NewEntryQueryBuilder u tz) calls).conditions.length
      = (configure (NewEntryQueryBuilder u tz) calls).args.length := by
    rw [ha, hc, extensionClauses_length, List.length_map]
  rw [buildCondition_eq _ hlen, hu, ha, hc, List.length_map]

theorem intercalate_go_data (acc s : String) (l : List String) :
    (String.intercalate.go acc s l).data
      = acc.data ++ (l.map (fun x => s.data ++ x.data)).flatten := by
  induction l generalizing acc with
  | nil => simp [String.intercalate.go]
  | cons a as ih => simp [String.intercalate.go, ih, String.data_append]

theorem intercalate_cons_data (s a : String) (l : List String) :
    (String.intercalate s (a :: l)).data
      = a.data ++ (l.map (fun x => s.data ++ x.data)).flatten := by
  simp [String.intercalate, intercalate_go_data]

theorem digitChar_ne_dollar (m : Nat) (h : m < 10) : Nat.digitChar m ≠ '$' := by
  interval_cases m <;> decide

theorem toDigitsCore_no_dollar (fuel n : Nat) (acc : List Char) (h : '$' ∉ acc) :
    '$' ∉ Nat.toDigitsCore 10 fuel n acc := by
  induction fuel generalizing n acc with
  | zero => simpa [Nat.toDigitsCore] using h
  | succ f ih =>
    have hd : '$' ∉ Nat.digitChar (n % 10) :: acc := by
      simp only [List.mem_cons, not_or]
      exact ⟨fun h' => digitChar_ne_dollar _ (Nat.mod_lt n (by decide)) h'.symm, h⟩
    simp only [Nat.toDigitsCore]
    split
    · exact hd
    · exact ih _ _ hd

theorem toString_nat_no_dollar (n : Nat) : '$' ∉ (toString n).data := by
  show '$' ∉ (Nat.repr n).data
  simp only [Nat.repr, Nat.toDigits, List.asString]
  exact toDigitsCore_no_dollar _ _ _ (by simp)

theorem digitChar_toNat (m : Nat) (h : m < 10) : (Nat.digitChar m).toNat - 48 = m := by
  interval_cases m <;> rfl

theorem decodeDigits_toDigitsCore (fuel n : Nat) (acc : List Char) (h : n < fuel) :
    decodeDigits (Nat.toDigitsCore 10 fuel n acc) 0 = decodeDigits acc n := by
  induction fuel generalizing n acc with
  | zero => omega
  | succ f ih =>
    have hd : decodeDigits (Nat.digitChar (n % 10) :: acc) (n / 10) = decodeDigits acc n := by
      simp only [decodeDigits, List.foldl_cons, digitChar_toNat _ (Nat.mod_lt n (by decide))]
      congr 1
      omega
    simp only [Nat.toDigitsCore]
    split
    · next h0 =>
      rw [← hd, h0]
    · next h0 =>
      rw [ih _ _ (by omega), hd]

theorem decodeDigits_toString (n : Nat) : decodeDigits (toString n).data 0 = n := by
  show decodeDigits (Nat.repr n).data 0 = n
  simp only [Nat.repr, Nat.toDigits, List.asString]
  rw [decodeDigits_toDigitsCore _ _ _ (Nat.lt_succ_self n)]
  rfl

theorem toString_nat_injective {n m : Nat} (h : toString n = toString m) : n = m := by
  have := congrArg (fun s => decodeDigits s.data 0) h
  simpa [decodeDigits_toString] using this

theorem extensionClause_injective {c o : String} {n m : Nat}
    (h : extensionClause c o n = extensionClause c o m) : n = m := by
  unfold extensionClause at h
  have h2 := congrArg String.data h
  simp only [String.data_append, List.append_assoc] at h2
  have h3 := List.append_cancel_left (List.append_cancel_left (List.append_cancel_left
    (List.append_cancel_left h2)))
  exact toString_nat_injective (String.ext h3)

theorem numberFrom_congr (n : Nat) (fs gs : List (String × Value))
    (h : fs.map Prod.fst = gs.map Prod.fst) : numberFrom n fs = numberFrom n gs := by
  induction fs generalizing n gs with
  | nil =>
    cases gs with
    | nil => rfl
    | cons g gs => simp at h
  | cons f fs ih =>
    cases gs with
    | nil => simp at h
    | cons g gs =>
      obtain ⟨t, v⟩ := f
      obtain ⟨t2, v2⟩ := g
      simp only [List.map_cons, List.cons.injEq] at h
      simp only [numberFrom, h.1, ih (n + 1) gs h.2]

theorem extensionClauses_congr (n : Nat) (xs ys : List (String × String × Value))
    (h : xs.map (fun t => (t.1, t.2.1)) = ys.map (fun t => (t.1, t.2.1))) :
    extensionClauses n xs = extensionClauses n ys := by
  induction xs generalizing n ys with
  | nil =>
    cases ys with
    | nil => rfl
    | cons g gs => simp at h
  | cons f fs ih =>
    cases ys with
    | nil => simp at h
    | cons g gs =>
      obtain ⟨c, o, v⟩ := f
      obtain ⟨c2, o2, v2⟩ := g
      simp only [List.map_cons, List.cons.injEq, Prod.mk.injEq] at h
      simp only [extensionClauses, h.1.1, h.1.2, ih (n + 1) gs h.2]

theorem structuralFilters_texts (a b : EntryQueryBuilder)
    (hcat : a.categoryID = 0 ↔ b.categoryID = 0) (hfeed : a.feedID = 0 ↔ b.feedID = 0)
    (hid : a.entryID = 0 ↔ b.entryID = 0) (hgt : a.gtEntryID = 0 ↔ b.gtEntryID = 0)
    (hlt : a.ltEntryID = 0 ↔ b.ltEntryID = 0) (hst : a.status = "" ↔ b.status = "") :
    (structuralFilters a).map Prod.fst = (structuralFilters b).map Prod.fst := by
  simp only [structuralFilters, List.map_append, ne_eq, hcat, hfeed, hid, hgt, hlt, hst,
    apply_ite (List.map Prod.fst), List.map_cons, List.map_nil]

/-- C1 (ownership). For every user id, timezone and finite sequence of configurator calls
on a fresh builder: the user id and the timezone are the ones given at construction, the
first element of the argument vector is the user id, and the predicate is a list of clauses
joined by " AND " whose first clause is exactly `e.user_id = $1`, so that the predicate
text begins with that clause. -/
theorem ownership_clause_first (u : Int) (tz : String) (calls : List Call) :
    (configure (NewEntryQueryBuilder u tz) calls).userID = u ∧
    (configure (NewEntryQueryBuilder u tz) calls).timezone = tz ∧
    (buildCondition (configure (NewEntryQueryBuilder u tz) calls)).1.head? = some (Value.int u) ∧
    (∃ rest : List String, (buildCondition (configure (NewEntryQueryBuilder u tz) calls)).2
        = " AND ".intercalate ("e.user_id = $1" :: rest)) ∧
    (∃ tail : String, (buildCondition (configure (NewEntryQueryBuilder u tz) calls)).2
        = "e.user_id = $1" ++ tail) := by
  obtain ⟨hu, htz, _, _⟩ := configure_new u tz calls
  rw [buildCondition_configure]
  refine ⟨hu, htz, rfl, ⟨_, rfl⟩, ?_⟩
  refine ⟨String.mk ((List.map (fun x => " AND ".data ++ x.data)
    (extensionClauses 2 (extensions calls)
      ++ numberFrom ((extensions calls).length + 2)
        (structuralFilters (configure (NewEntryQueryBuilder u tz) calls)))).flatten), ?_⟩
  apply String.ext
  rw [intercalate_cons_data, String.data_append]

/-- C4 (active filters). For every builder configured from a fresh one, the builder's own
clause and argument lists are the extension conditions in call order (numbered from 2), and
`buildCondition` returns the user id followed by the extension values and the values of the
configured structural filters, and the ownership clause followed by the extension clauses
and one clause per configured structural filter, taken in the fixed order category, feed,
entry id, entry id greater-than, entry id lower-than, status. A fresh builder yields the
ownership clause alone with arguments `[userID]`; user 5 with category 2 and feed 33 yields
the three clauses on `$1`, `$2`, `$3` with arguments `[5, 2, 33]`. -/
theorem active_filters (u : Int) (tz : String) (calls : List Call) :
    (configure (NewEntryQueryBuilder u tz) calls).conditions
      = extensionClauses 2 (extensions calls) ∧
    (configure (NewEntryQueryBuilder u tz) calls).args
      = (extensions calls).map (fun t => t.2.2) ∧
    buildCondition (configure (NewEntryQueryBuilder u tz) calls) =
      (Value.int u :: ((extensions calls).map (fun t => t.2.2)
          ++ (structuralFilters (configure (NewEntryQueryBuilder u tz) calls)).map Prod.snd),
       " AND ".intercalate ("e.user_id = $1" ::
          (extensionClauses 2 (extensions calls)
            ++ numberFrom ((extensions calls).length + 2)
                (structuralFilters (configure (NewEntryQueryBuilder u tz) calls))))) ∧
    buildCondition (NewEntryQueryBuilder u tz) = ([Value.int u], "e.user_id = $1") ∧
    buildCondition (configure (NewEntryQueryBuilder 5 tz)
        [Call.WithCategoryID 2, Call.WithFeedID 33])
      = ([Value.int 5, Value.int 2, Value.int 33],
         "e.user_id = $1 AND f.category_id=$2 AND e.feed_id=$3") := by
  obtain ⟨_, _, ha, hc⟩ := configure_new u tz calls
  refine ⟨hc, ha, buildCondition_configure u tz calls, ?_, ?_⟩
  · have h := buildCondition_configure u tz []
    simpa [configure, extensions, extensionClauses, structuralFilters, numberFrom,
      NewEntryQueryBuilder, String.intercalate, String.intercalate.go] using h
  · simp [buildCondition, configure, Call.run, WithCategoryID, WithFeedID,
      NewEntryQueryBuilder]
    decide

/-- C3 (no value interpolation). Two builders configured from fresh ones that agree on which
of the five id filters are zero, on whether the status is empty and on the sequence of
(column, operator) pairs passed to `WithCondition` yield the same predicate text, whatever
the user ids, timezones, filter values and extension values are. -/
theorem no_value_interpolation (u u2 : Int) (tz tz2 : String) (calls calls2 : List Call)
    (hext : (extensions calls).map (fun t => (t.1, t.2.1))
      = (extensions calls2).map (fun t => (t.1, t.2.1)))
    (hcat : (configure (NewEntryQueryBuilder u tz) calls).categoryID = 0
      ↔ (configure (NewEntryQueryBuilder u2 tz2) calls2).categoryID = 0)
    (hfeed : (configure (NewEntryQueryBuilder u tz) calls).feedID = 0
      ↔ (configure (NewEntryQueryBuilder u2 tz2) calls2).feedID = 0)
    (hid : (configure (NewEntryQueryBuilder u tz) calls).entryID = 0
      ↔ (configure (NewEntryQueryBuilder u2 tz2) calls2).entryID = 0)
    (hgt : (configure (NewEntryQueryBuilder u tz) calls).gtEntryID = 0
      ↔ (configure (NewEntryQueryBuilder u2 tz2) calls2).gtEntryID = 0)
    (hlt : (configure (NewEntryQueryBuilder u tz) calls).ltEntryID = 0
      ↔ (configure (NewEntryQueryBuilder u2 tz2) calls2).ltEntryID = 0)
    (hst : (configure (NewEntryQueryBuilder u tz) calls).status = ""
      ↔ (configure (NewEntryQueryBuilder u2 tz2) calls2).status = "") :
    (buildCondition (configure (NewEntryQueryBuilder u tz) calls)).2
      = (buildCondition (configure (NewEntryQueryBuilder u2 tz2) calls2)).2 := by
  have hlen : (extensions calls).length = (extensions calls2).length := by
    simpa using congrArg List.length hext
  rw [buildCondition_configure, buildCondition_configure]
  simp only
  rw [extensionClauses_congr 2 _ _ hext, hlen,
    numberFrom_congr _ _ _ (structuralFilters_texts _ _ hcat hfeed hid hgt hlt hst)]

/-- Instance of `no_value_interpolation`: two call sequences with different users, values
and call order but the same active filters and the same (column, operator) pair. -/
theorem no_value_interpolation_witness :
    (buildCondition (configure (NewEntryQueryBuilder 5 "UTC")
        [Call.WithCondition "e.title" "LIKE" (Value.str "a"), Call.WithFeedID 3,
         Call.WithStatus "unread"])).2
      = (buildCondition (configure (NewEntryQueryBuilder 42 "Europe/Paris")
        [Call.WithStatus "read", Call.WithCondition "e.title" "LIKE" (Value.str "zz"),
         Call.WithFeedID 77])).2 :=
  no_value_interpolation 5 42 "UTC" "Europe/Paris" _ _ (by decide) (by decide) (by decide)
    (by decide) (by decide) (by decide) (by decide)

theorem NumberedFrom.append {n : Nat} {xs ys : List String} (hx : NumberedFrom n xs)
    (hy : NumberedFrom (n + xs.length) ys) : NumberedFrom n (xs ++ ys) := by
  induction xs generalizing n with
  | nil => simpa using hy
  | cons x xs ih =>
    refine ⟨hx.1, ih hx.2 ?_⟩
    simpa [Nat.add_assoc, Nat.add_comm 1] using hy

theorem NumberedFrom.getElem {n : Nat} {l : List String} (h : NumberedFrom n l) (k : Nat)
    (hk : k < l.length) :
    ∃ pre : String, l[k] = pre ++ "$" ++ toString (n + k) ∧ '$' ∉ pre.data := by
  induction l generalizing n k with
  | nil => simp at hk
  | cons x xs ih =>
    cases k with
    | zero => simpa using h.1
    | succ k =>
      have hk2 : k < xs.length := by simpa using hk
      obtain ⟨pre, h1, h2⟩ := ih h.2 k hk2
      refine ⟨pre, ?_, h2⟩
      simp only [List.getElem_cons_succ, h1]
      congr 2
      omega

theorem NumberedFrom.count_one {n : Nat} {l : List String} (h : NumberedFrom n l) :
    ∀ x ∈ l, x.data.count '$' = 1 := by
  induction l generalizing n with
  | nil => simp
  | cons x xs ih =>
    intro y hy
    rcases List.mem_cons.mp hy with rfl | hy
    · obtain ⟨pre, h1, h2⟩ := h.1
      rw [h1, String.data_append, String.data_append, List.count_append, List.count_append,
        List.count_eq_zero_of_not_mem h2, List.count_eq_zero_of_not_mem (toString_nat_no_dollar n)]
      rfl
    · exact ih h.2 y hy

theorem count_flatten_sep (l : List String) (h : ∀ x ∈ l, x.data.count '$' = 1) :
    ((l.map (fun x => " AND ".data ++ x.data)).flatten).count '$' = l.length := by
  induction l with
  | nil => rfl
  | cons x xs ih =>
    have hx := h x (List.mem_cons_self _ _)
    have hxs := ih (fun y hy => h y (List.mem_cons_of_mem _ hy))
    have hsep : List.count '$' " AND ".data = 0 := by decide
    simp only [List.map_cons, List.flatten_cons, List.count_append, hx, hxs, hsep,
      List.length_cons]
    omega

theorem numberedFrom_extensionClauses (n : Nat) (xs : List (String × String × Value))
    (h : ∀ t ∈ xs, '$' ∉ t.1.data ∧ '$' ∉ t.2.1.data) :
    NumberedFrom n (extensionClauses n xs) := by
  induction xs generalizing n with
  | nil => trivial
  | cons x xs ih =>
    obtain ⟨c, o, v⟩ := x
    obtain ⟨hc, ho⟩ := h (c, o, v) (List.mem_cons_self _ _)
    refine ⟨⟨c ++ " " ++ o ++ " ", ?_, ?_⟩,
      ih (n + 1) (fun t hm => h t (List.mem_cons_of_mem _ hm))⟩
    · apply String.ext
      simp [extensionClause, String.data_append]
    · simp only [String.data_append, List.mem_append, not_or]
      exact ⟨⟨⟨hc, by decide⟩, ho⟩, by decide⟩

theorem numberedFrom_numberFrom (n : Nat) (fs : List (String × Value))
    (h : ∀ t v, (t, v) ∈ fs → ∃ pre : String, t = pre ++ "$" ∧ '$' ∉ pre.data) :
    NumberedFrom n (numberFrom n fs) := by
  induction fs generalizing n with
  | nil => trivial
  | cons f fs ih =>
    obtain ⟨t, v⟩ := f
    obtain ⟨pre, h1, h2⟩ := h t v (List.mem_cons_self _ _)
    exact ⟨⟨pre, by rw [h1], h2⟩,
      ih (n + 1) (fun t2 v2 hm => h t2 v2 (List.mem_cons_of_mem _ hm))⟩

theorem structuralFilters_texts_shape (e : EntryQueryBuilder) :
    ∀ t v, (t, v) ∈ structuralFilters e → ∃ pre : String, t = pre ++ "$" ∧ '$' ∉ pre.data := by
  intro t v hm
  simp only [structuralFilters, List.mem_append] at hm
  rcases hm with ((((hm | hm) | hm) | hm) | hm) | hm <;> split at hm <;>
    simp only [List.mem_singleton, List.not_mem_nil, Prod.mk.injEq] at hm
  · exact ⟨"f.category_id=", by rw [hm.1]; rfl, by decide⟩
  · exact ⟨"e.feed_id=", by rw [hm.1]; rfl, by decide⟩
  · exact ⟨"e.id=", by rw [hm.1]; rfl, by decide⟩
  · exact ⟨"e.id > ", by rw [hm.1]; rfl, by decide⟩
  · exact ⟨"e.id < ", by rw [hm.1]; rfl, by decide⟩
  · exact ⟨"e.status=", by rw [hm.1]; rfl, by decide⟩

/-- C2 (parameter alignment). For every builder configured from a fresh one by calls whose
`WithCondition` column and operator texts contain no `$`: the predicate is a list of
clauses joined by " AND ", there are as many clauses as arguments, the `k`-th clause
(counting from 1) ends in the placeholder `$k` and contains no other `$`, and the number
of `$` signs in the whole predicate text equals the length of the argument vector. -/
theorem parameter_alignment (u : Int) (tz : String) (calls : List Call)
    (hclean : ∀ t ∈ extensions calls, '$' ∉ t.1.data ∧ '$' ∉ t.2.1.data) :
    ∃ clauses : List String,
      (buildCondition (configure (NewEntryQueryBuilder u tz) calls)).2
        = " AND ".intercalate clauses ∧
      clauses.length = (buildCondition (configure (NewEntryQueryBuilder u tz) calls)).1.length ∧
      (∀ (k : Nat) (hk : k < clauses.length),
        ∃ pre : String, clauses[k] = pre ++ "$" ++ toString (k + 1) ∧ '$' ∉ pre.data) ∧
      (buildCondition (configure (NewEntryQueryBuilder u tz) calls)).2.data.count '$'
        = (buildCondition (configure (NewEntryQueryBuilder u tz) calls)).1.length := by
  rw [buildCondition_configure]
  have hrest : NumberedFrom 2 (extensionClauses 2 (extensions calls)
      ++ numberFrom ((extensions calls).length + 2)
        (structuralFilters (configure (NewEntryQueryBuilder u tz) calls))) := by
    apply NumberedFrom.append (numberedFrom_extensionClauses 2 _ hclean)
    rw [extensionClauses_length, Nat.add_comm 2]
    exact numberedFrom_numberFrom _ _ (structuralFilters_texts_shape _)
  have hall : NumberedFrom 1 ("e.user_id = $1" :: (extensionClauses 2 (extensions calls)
      ++ numberFrom ((extensions calls).length + 2)
        (structuralFilters (configure (NewEntryQueryBuilder u tz) calls)))) :=
    ⟨⟨"e.user_id = ", by decide, by decide⟩, hrest⟩
  refine ⟨"e.user_id = $1" :: (extensionClauses 2 (extensions calls)
      ++ numberFrom ((extensions calls).length + 2)
        (structuralFilters (configure (NewEntryQueryBuilder u tz) calls))), rfl, ?_, ?_, ?_⟩
  · simp [extensionClauses_length, numberFrom_length]
  · intro k hk
    obtain ⟨pre, h1, h2⟩ := hall.getElem k hk
    exact ⟨pre, by rw [h1, Nat.add_comm 1 k], h2⟩
  · simp only
    rw [intercalate_cons_data, List.count_append, count_flatten_sep _ hrest.count_one]
    simp [extensionClauses_length, numberFrom_length]
    have : List.count '$' "e.user_id = $1".data = 1 := by decide
    omega

/-- Instance of `parameter_alignment` with two extension conditions and two structural
filters. -/
theorem parameter_alignment_witness :
    ∃ clauses : List String,
      (buildCondition (configure (NewEntryQueryBuilder 7 "UTC")
        [Call.WithCondition "e.title" "LIKE" (Value.str "x"), Call.WithStatus "unread",
         Call.WithCondition "e.author" "=" (Value.str "y"), Call.WithFeedID 9])).2
        = " AND ".intercalate clauses ∧
      clauses.length = (buildCondition (configure (NewEntryQueryBuilder 7 "UTC")
        [Call.WithCondition "e.title" "LIKE" (Value.str "x"), Call.WithStatus "unread",
         Call.WithCondition "e.author" "=" (Value.str "y"), Call.WithFeedID 9])).1.length ∧
      (∀ (k : Nat) (hk : k < clauses.length),
        ∃ pre : String, clauses[k] = pre ++ "$" ++ toString (k + 1) ∧ '$' ∉ pre.data) ∧
      (buildCondition (configure (NewEntryQueryBuilder 7 "UTC")
        [Call.WithCondition "e.title" "LIKE" (Value.str "x"), Call.WithStatus "unread",
         Call.WithCondition "e.author" "=" (Value.str "y"), Call.WithFeedID 9])).2.data.count '$'
        = (buildCondition (configure (NewEntryQueryBuilder 7 "UTC")
        [Call.WithCondition "e.title" "LIKE" (Value.str "x"), Call.WithStatus "unread",
         Call.WithCondition "e.author" "=" (Value.str "y"), Call.WithFeedID 9])).1.length :=
  parameter_alignment 7 "UTC" _ (by decide)

theorem buildSorting_eq (e : EntryQueryBuilder) :
    buildSorting e = " ".intercalate (sortingParts e) := by
  unfold buildSorting sortingParts
  by_cases h1 : e.order = "" <;> by_cases h2 : e.direction = "" <;>
    by_cases h3 : e.limit = 0 <;> by_cases h4 : e.offset = 0 <;>
    simp [h1, h2, h3, h4]

/-- C5 (query tail). For every builder, `buildSorting` is the present parts joined by
single spaces, the parts being, in this order, `ORDER BY "<order>"` iff the order is
non-empty, the direction iff it is non-empty, `LIMIT <limit>` iff the limit is non-zero and
`OFFSET <offset>` iff the offset is non-zero; it is the empty string when none is set; and
order published_at, direction DESC, limit 100, offset 100 give
`ORDER BY "published_at" DESC LIMIT 100 OFFSET 100`. -/
theorem query_tail (e : EntryQueryBuilder) :
    buildSorting e = " ".intercalate
      ((if e.order ≠ "" then ["ORDER BY \"" ++ e.order ++ "\""] else [])
        ++ (if e.direction ≠ "" then [e.direction] else [])
        ++ (if e.limit ≠ 0 then ["LIMIT " ++ sprintfD e.limit] else [])
        ++ (if e.offset ≠ 0 then ["OFFSET " ++ sprintfD e.offset] else [])) ∧
    buildSorting { e with order := "", direction := "", limit := 0, offset := 0 } = "" ∧
    buildSorting { e with order := "published_at", direction := "DESC", limit := 100,
                          offset := 100 }
      = "ORDER BY \"published_at\" DESC LIMIT 100 OFFSET 100" := by
  refine ⟨buildSorting_eq e, ?_, ?_⟩
  · rw [buildSorting_eq]; rfl
  · rw [buildSorting_eq]
    simp only [sortingParts]
    decide

/-- C6, refuted as stated: an order string and a direction string outside the closed sets
are copied into the tail; the tail is not of the form `ORDER BY "<o>" <d>` for any allowed
column `o` and direction `d`. -/
theorem closed_token_counterexample :
    buildSorting (WithDirection (WithOrder (NewEntryQueryBuilder 1 "UTC")
        "title\"; DROP TABLE entries; --") "SIDEWAYS")
      = "ORDER BY \"title\"; DROP TABLE entries; --\" SIDEWAYS" ∧
    ¬ ∃ o ∈ orderColumns, ∃ d ∈ directions,
      buildSorting (WithDirection (WithOrder (NewEntryQueryBuilder 1 "UTC")
        "title\"; DROP TABLE entries; --") "SIDEWAYS")
        = "ORDER BY \"" ++ o ++ "\" " ++ d := by
  decide

/-- C6, amended. For every builder and every order string and direction string, allowed
or not, `WithOrder` and `WithDirection` store the string unchanged and `buildSorting`
copies it verbatim: the tail is `ORDER BY "<order>"` if and only if the order string is
non-empty, then the direction string itself if and only if it is non-empty, then the limit
and offset parts of the builder, joined by single spaces, whichever of the two calls comes
first; nothing is rejected or replaced by a default. When the strings passed are members of
the closed sets `orderColumns` and `directions`, both parts are present and carry those
members. -/
theorem order_direction_verbatim (e : EntryQueryBuilder) (order direction : String) :
    (WithOrder e order).order = order ∧
    (WithDirection e direction).direction = direction ∧
    buildSorting (WithDirection (WithOrder e order) direction)
      = " ".intercalate ((if order ≠ "" then ["ORDER BY \"" ++ order ++ "\""] else [])
          ++ (if direction ≠ "" then [direction] else [])
          ++ (if e.limit ≠ 0 then ["LIMIT " ++ sprintfD e.limit] else [])
          ++ (if e.offset ≠ 0 then ["OFFSET " ++ sprintfD e.offset] else [])) ∧
    buildSorting (WithOrder (WithDirection e direction) order)
      = buildSorting (WithDirection (WithOrder e order) direction) ∧
    (order ∈ orderColumns → direction ∈ directions →
      buildSorting (WithDirection (WithOrder e order) direction)
        = " ".intercalate (["ORDER BY \"" ++ order ++ "\"", direction]
            ++ (if e.limit ≠ 0 then ["LIMIT " ++ sprintfD e.limit] else [])
            ++ (if e.offset ≠ 0 then ["OFFSET " ++ sprintfD e.offset] else []))) := by
  have hgen : buildSorting (WithDirection (WithOrder e order) direction)
      = " ".intercalate ((if order ≠ "" then ["ORDER BY \"" ++ order ++ "\""] else [])
          ++ (if direction ≠ "" then [direction] else [])
          ++ (if e.limit ≠ 0 then ["LIMIT " ++ sprintfD e.limit] else [])
          ++ (if e.offset ≠ 0 then ["OFFSET " ++ sprintfD e.offset] else [])) := by
    rw [buildSorting_eq]
    rfl
  refine ⟨rfl, rfl, hgen, rfl, ?_⟩
  intro ho hd
  have ho2 : order ≠ "" := by
    simp only [orderColumns, List.mem_cons, List.mem_singleton, List.not_mem_nil,
      or_false] at ho
    rcases ho with rfl | rfl | rfl <;> decide
  have hd2 : direction ≠ "" := by
    simp only [directions, List.mem_cons, List.mem_singleton, List.not_mem_nil,
      or_false] at hd
    rcases hd with rfl | rfl <;> decide
  rw [hgen]
  simp [ho2, hd2]

/-- Instances of `order_direction_verbatim`: the unread listing with members of the closed
sets, a lone order string outside the set, and a lone direction string outside the set. -/
theorem order_direction_verbatim_witness :
    buildSorting (WithDirection (WithOrder (NewEntryQueryBuilder 42 "Europe/Paris")
        "published_at") "DESC")
      = "ORDER BY \"published_at\" DESC" ∧
    buildSorting (WithDirection (WithOrder (NewEntryQueryBuilder 1 "UTC") "evil") "")
      = "ORDER BY \"evil\"" ∧
    buildSorting (WithDirection (WithOrder (WithLimit (NewEntryQueryBuilder 1 "UTC") 5) "")
        "SIDEWAYS")
      = "SIDEWAYS LIMIT 5" :=
  ⟨((order_direction_verbatim (NewEntryQueryBuilder 42 "Europe/Paris") "published_at"
      "DESC").2.2.2.2 (by decide) (by decide)).trans (by decide),
   (order_direction_verbatim (NewEntryQueryBuilder 1 "UTC") "evil" "").2.2.1.trans
      (by decide),
   (order_direction_verbatim (WithLimit (NewEntryQueryBuilder 1 "UTC") 5) ""
      "SIDEWAYS").2.2.1.trans (by decide)⟩

/-- C9, refuted as stated: calling `WithCondition` twice with the same column, operator and
value yields one more clause and one more argument than calling it once. -/
theorem idempotence_counterexample :
    buildCondition (WithCondition (NewEntryQueryBuilder 1 "UTC") "e.id" ">" (Value.int 3))
      = ([Value.int 1, Value.int 3], "e.user_id = $1 AND e.id > $2") ∧
    buildCondition (WithCondition
        (WithCondition (NewEntryQueryBuilder 1 "UTC") "e.id" ">" (Value.int 3))
        "e.id" ">" (Value.int 3))
      = ([Value.int 1, Value.int 3, Value.int 3],
         "e.user_id = $1 AND e.id > $2 AND e.id > $3") ∧
    buildCondition (Call.run (Call.run (NewEntryQueryBuilder 1 "UTC")
        (Call.WithCondition "e.id" ">" (Value.int 3)))
        (Call.WithCondition "e.id" ">" (Value.int 3)))
      ≠ buildCondition (Call.run (NewEntryQueryBuilder 1 "UTC")
        (Call.WithCondition "e.id" ">" (Value.int 3))) := by
  decide

/-- C9, amended. For every builder and every configurator call other than `WithCondition`,
performing the call twice with the same value leaves the builder, and therefore the
predicate, the argument vector and the tail, as performing it once does. -/
theorem setters_idempotent (e : EntryQueryBuilder) (call : Call)
    (h : ∀ c o v, call ≠ Call.WithCondition c o v) :
    Call.run (Call.run e call) call = Call.run e call ∧
    buildCondition (Call.run (Call.run e call) call) = buildCondition (Call.run e call) ∧
    buildSorting (Call.run (Call.run e call) call) = buildSorting (Call.run e call) := by
  have hrun : Call.run (Call.run e call) call = Call.run e call := by
    cases call with
    | WithCondition c o v => exact absurd rfl (h c o v)
    | _ => rfl
  exact ⟨hrun, by rw [hrun], by rw [hrun]⟩

/-- Instance of `setters_idempotent` for `WithStatus`. -/
theorem setters_idempotent_witness :
    Call.run (Call.run (NewEntryQueryBuilder 42 "UTC") (Call.WithStatus "unread"))
        (Call.WithStatus "unread")
      = Call.run (NewEntryQueryBuilder 42 "UTC") (Call.WithStatus "unread") ∧
    buildCondition (Call.run (Call.run (NewEntryQueryBuilder 42 "UTC")
        (Call.WithStatus "unread")) (Call.WithStatus "unread"))
      = buildCondition (Call.run (NewEntryQueryBuilder 42 "UTC") (Call.WithStatus "unread")) ∧
    buildSorting (Call.run (Call.run (NewEntryQueryBuilder 42 "UTC")
        (Call.WithStatus "unread")) (Call.WithStatus "unread"))
      = buildSorting (Call.run (NewEntryQueryBuilder 42 "UTC") (Call.WithStatus "unread")) :=
  setters_idempotent (NewEntryQueryBuilder 42 "UTC") (Call.WithStatus "unread")
    (fun _ _ _ h => by cases h)

theorem extensionClauses_getElem? (n : Nat) (xs : List (String × String × Value)) (k : Nat)
    (c o : String) (v : Value) (h : xs[k]? = some (c, o, v)) :
    (extensionClauses n xs)[k]? = some (extensionClause c o (n + k)) := by
  induction xs generalizing n k with
  | nil => simp at h
  | cons x xs ih =>
    obtain ⟨c2, o2, v2⟩ := x
    cases k with
    | zero =>
      simp only [List.getElem?_cons_zero, Option.some.injEq, Prod.mk.injEq] at h
      simp [extensionClauses, h.1, h.2.1]
    | succ k =>
      simp only [List.getElem?_cons_succ] at h
      simp only [extensionClauses, List.getElem?_cons_succ, ih (n + 1) k h]
      congr 2
      omega

/-- Where the `k`-th extension condition and its value end up: the clause carries the
number `k + 2` and the value is the element of index `k + 1` of the argument vector. -/
theorem extension_placeholder_position (u : Int) (tz : String) (calls : List Call) (k : Nat)
    (c o : String) (v : Value) (h : (extensions calls)[k]? = some (c, o, v)) :
    (configure (NewEntryQueryBuilder u tz) calls).conditions[k]?
      = some (extensionClause c o (k + 2)) ∧
    (buildCondition (configure (NewEntryQueryBuilder u tz) calls)).1[k + 1]? = some v := by
  obtain ⟨_, _, _, hc⟩ := configure_new u tz calls
  have hk : k < (extensions calls).length := by
    by_contra hcon
    rw [List.getElem?_eq_none (by omega)] at h
    exact absurd h (by simp)
  refine ⟨?_, ?_⟩
  · rw [hc, extensionClauses_getElem? 2 _ k c o v h, Nat.add_comm]
  · rw [buildCondition_configure]
    simp only [List.getElem?_cons_succ]
    rw [List.getElem?_append_left (by simpa using hk), List.getElem?_map, h]
    rfl

/-- C10, refuted as stated: there is no sequence of configurator calls on a fresh builder
(so none made of `WithCondition` calls only, and no single call) after which an extension
condition carries a placeholder number `n` while its value is not the `n`-th element
(counting from 1) of the argument vector returned by `buildCondition`. -/
theorem placeholder_off_by_one_counterexample :
    ¬ ∃ (u : Int) (tz : String) (calls : List Call) (k n : Nat) (c o : String) (v : Value),
      (extensions calls)[k]? = some (c, o, v) ∧
      (configure (NewEntryQueryBuilder u tz) calls).conditions[k]?
        = some (extensionClause c o n) ∧
      (buildCondition (configure (NewEntryQueryBuilder u tz) calls)).1[n - 1]? ≠ some v := by
  rintro ⟨u, tz, calls, k, n, c, o, v, hk, hcond, hpos⟩
  obtain ⟨h1, h2⟩ := extension_placeholder_position u tz calls k c o v hk
  rw [h1, Option.some.injEq] at hcond
  have hn : k + 2 = n := extensionClause_injective hcond
  subst hn
  exact hpos h2

/-- C10, amended. For every sequence of configurator calls on a fresh builder, the `k`-th
`WithCondition` call (counting from 0) leaves the clause `<column> <operator> $<k+2>`, and
its value is the element of index `k + 1`, that is the `(k+2)`-th element counting from 1,
of the argument vector returned by `buildCondition`, which begins with the user id: the
number written, `len(args)+1` after the append, is the position of the value. -/
theorem placeholder_matches_position (u : Int) (tz : String) (calls : List Call) (k : Nat)
    (c o : String) (v : Value) (h : (extensions calls)[k]? = some (c, o, v)) :
    (configure (NewEntryQueryBuilder u tz) calls).conditions[k]?
      = some (c ++ " " ++ o ++ " $" ++ toString (k + 2)) ∧
    (buildCondition (configure (NewEntryQueryBuilder u tz) calls)).1[(k + 2) - 1]? = some v ∧
    (buildCondition (configure (NewEntryQueryBuilder u tz) calls)).1[0]? = some (Value.int u) :=
  ⟨(extension_placeholder_position u tz calls k c o v h).1,
   (extension_placeholder_position u tz calls k c o v h).2,
   by rw [buildCondition_configure]; simp⟩

/-- Instance of `placeholder_matches_position` for a single `WithCondition` call. -/
theorem placeholder_matches_position_witness :
    (configure (NewEntryQueryBuilder 7 "UTC")
        [Call.WithCondition "e.title" "LIKE" (Value.str "x")]).conditions[0]?
      = some ("e.title" ++ " " ++ "LIKE" ++ " $" ++ toString (0 + 2)) ∧
    (buildCondition (configure (NewEntryQueryBuilder 7 "UTC")
        [Call.WithCondition "e.title" "LIKE" (Value.str "x")])).1[(0 + 2) - 1]?
      = some (Value.str "x") ∧
    (buildCondition (configure (NewEntryQueryBuilder 7 "UTC")
        [Call.WithCondition "e.title" "LIKE" (Value.str "x")])).1[0]? = some (Value.int 7) :=
  placeholder_matches_position 7 "UTC" [Call.WithCondition "e.title" "LIKE" (Value.str "x")]
    0 "e.title" "LIKE" (Value.str "x") (by decide)

/-- C7 (GetEntry result). With the base read and the enclosure fetch taken as given,
`GetEntry` reads with the limit forced to 1; it returns the base read's error when that
fails, the absent value without error when the number of rows is not one, and for exactly
one row the entry with `Enclosures` set to what the enclosure fetch returns for the
entry's id, or that fetch's error and no entry. -/
theorem getEntry_result {ε : Type}
    (GetEntries : EntryQueryBuilder → Except String (List (Entry ε)))
    (GetEnclosures : Int → Except String (List ε)) (e : EntryQueryBuilder) :
    (GetEntry GetEntries GetEnclosures e).2 = { e with limit := 1 } ∧
    (∀ err, GetEntries { e with limit := 1 } = Except.error err →
      (GetEntry GetEntries GetEnclosures e).1 = Except.error err) ∧
    (∀ entries, GetEntries { e with limit := 1 } = Except.ok entries → entries.length ≠ 1 →
      (GetEntry GetEntries GetEnclosures e).1 = Except.ok none) ∧
    (∀ entry enclosures, GetEntries { e with limit := 1 } = Except.ok [entry] →
      GetEnclosures entry.ID = Except.ok enclosures →
      (GetEntry GetEntries GetEnclosures e).1
        = Except.ok (some { entry with Enclosures := enclosures })) ∧
    (∀ entry err, GetEntries { e with limit := 1 } = Except.ok [entry] →
      GetEnclosures entry.ID = Except.error err →
      (GetEntry GetEntries GetEnclosures e).1 = Except.error err) := by
  refine ⟨?_, ?_, ?_, ?_, ?_⟩
  · unfold GetEntry
    simp only
    split
    · rfl
    · split
      · rfl
      · split
        · split <;> rfl
        · rfl
  · intro err h
    simp only [GetEntry, h]
  · intro entries h hlen
    simp only [GetEntry, h, hlen, ne_eq, not_false_eq_true, if_true]
  · intro entry enclosures h h2
    simp [GetEntry, h, h2]
  · intro entry err h h2
    simp [GetEntry, h, h2]

/-- Instances of `getEntry_result`: a failing base read, zero rows, two rows, one row with
its enclosures, and one row with a failing enclosure fetch. -/
theorem getEntry_result_witness :
    (GetEntry (fun _ => (Except.error "unable to get entries: down" :
          Except String (List (Entry String))))
        (fun _ => Except.ok ["audio.mp3"]) (NewEntryQueryBuilder 7 "UTC")).1
      = Except.error "unable to get entries: down" ∧
    (GetEntry (fun _ => (Except.ok [] : Except String (List (Entry String))))
        (fun _ => Except.ok ["audio.mp3"]) (NewEntryQueryBuilder 7 "UTC")).1
      = Except.ok none ∧
    (GetEntry (fun _ => Except.ok [sampleEntry, sampleEntry])
        (fun _ => Except.ok ["audio.mp3"]) (NewEntryQueryBuilder 7 "UTC")).1
      = Except.ok none ∧
    (GetEntry (fun b => if b.limit = 1 then Except.ok [sampleEntry] else Except.ok [])
        (fun id => if id = 999 then Except.ok ["audio.mp3"] else Except.ok [])
        (WithEntryID (NewEntryQueryBuilder 7 "UTC") 999)).1
      = Except.ok (some { sampleEntry with Enclosures := ["audio.mp3"] }) ∧
    (GetEntry (fun _ => Except.ok [sampleEntry])
        (fun _ => Except.error "unable to fetch enclosures")
        (NewEntryQueryBuilder 7 "UTC")).1
      = Except.error "unable to fetch enclosures" :=
  ⟨(getEntry_result _ _ _).2.1 _ rfl,
   (getEntry_result _ _ _).2.2.1 [] rfl (by decide),
   (getEntry_result _ _ _).2.2.1 [sampleEntry, sampleEntry] rfl (by decide),
   (getEntry_result _ _ _).2.2.2.1 sampleEntry ["audio.mp3"] rfl rfl,
   (getEntry_result _ _ _).2.2.2.2 sampleEntry _ rfl rfl⟩

/-- C8, the code evaluated on a driver failure: for every batch size and every error
message, when `Query` returns the nil row stream and an error, `GetJobs` logs the error
and then panics on the nil row stream; it does not return the empty list. -/
theorem getJobs_query_error_panics (batchSize : Int) (msg : String) :
    GetJobs (fun _ _ => (none, some msg)) batchSize
      = (["Unable to fetch feed jobs: " ++ msg],
         Outcome.panicked "runtime error: invalid memory address or nil pointer dereference") ∧
    (GetJobs (fun _ _ => (none, some msg)) batchSize).2 ≠ Outcome.returned [] := by
  constructor
  · rfl
  · intro h
    cases h

/-- Without a driver failure `GetJobs` returns the scanned jobs in row order, and a scan
error keeps the jobs scanned before it. -/
theorem getJobs_rows_example :
    GetJobs (fun _ _ => (some [Except.ok (1, 10), Except.ok (2, 10)], none)) 50
      = ([], Outcome.returned [{ FeedID := 1, UserID := 10 }, { FeedID := 2, UserID := 10 }]) ∧
    GetJobs (fun _ _ => (some [Except.ok (1, 10), Except.error "bad row", Except.ok (2, 10)],
        none)) 50
      = (["Unable to fetch feed job: bad row"],
         Outcome.returned [{ FeedID := 1, UserID := 10 }]) := by
  decide

/-- The SQL text of the job feeder for a batch of 50. -/
theorem jobsQuery_example : jobsQuery 50 =
    "SELECT\n\t\tid, user_id\n\t\tFROM feeds\n\t\tWHERE parsing_error_count < $1\n\t\tORDER BY checked_at ASC LIMIT 50" := by
  decide

end Storage
